import Mathlib

/- Formal model of the fassaden-viewer repository: the material appearance
pipeline (src/utils/materialUtils.ts together with the lookup tables of
src/config/constants.ts) and the scene-controller algorithms
(findFacadeMesh, handleZoom, toggleClipping in the SceneController
component), plus the material-replacement effect of CustomModel.
Numeric state is modelled with exact rationals; three.js vector, color,
box and plane operations are translated operation by operation. -/

namespace Fassaden

/-- RGB colour triple with rational channels, modelling a three.js `Color`
value as used by `createMaterial` (channel arithmetic only). -/
structure Color3 where
  r : ℚ
  g : ℚ
  b : ℚ
deriving DecidableEq

/-- three.js `Color.lerp`: channelwise `this.r += (color.r - this.r) * alpha`;
note that three.js applies no clamping here. -/
def Color3.lerp (c target : Color3) (alpha : ℚ) : Color3 :=
  ⟨c.r + (target.r - c.r) * alpha,
   c.g + (target.g - c.g) * alpha,
   c.b + (target.b - c.b) * alpha⟩

/-- three.js `Color.multiplyScalar`. -/
def Color3.mulScalar (c : Color3) (s : ℚ) : Color3 :=
  ⟨c.r * s, c.g * s, c.b * s⟩

/-- The shading-relevant fields of the `MeshStandardMaterial` constructed and
mutated by `createMaterial`. -/
structure MatState where
  color : Color3
  roughness : ℚ
  metalness : ℚ
  envMapIntensity : ℚ
deriving DecidableEq

/-- `WOOD_TYPES` lookup table from src/config/constants.ts; indexing with an
unknown key yields `undefined` in the source, modelled as `none`. -/
def WOOD_TYPES : String → Option String
  | "Fichte/Tanne" => some ("spruce")
  | "Lärche" => some ("larch")
  | "Douglasie" => some ("douglas")
  | _ => none

/-- `SURFACE_TYPES` lookup table from src/config/constants.ts. -/
def SURFACE_TYPES : String → Option String
  | "Geschliffen" => some ("smooth")
  | "Sägerau" => some ("rough")
  | "Gerillt" => some ("grooved")
  | "Gehobelt" => some ("planed")
  | _ => none

/-- `WOOD_COLORS` from src/config/constants.ts.  The argument is the wood key
produced by the `WOOD_TYPES` lookup with fallback `"spruce"`, so only the
three listed keys are ever reachable; the wildcard row repeats the spruce
colour. -/
def WOOD_COLORS : String → Color3
  | "larch" => ⟨0.75, 0.6, 0.4⟩
  | "douglas" => ⟨0.7, 0.5, 0.3⟩
  | _ => ⟨0.8, 0.7, 0.5⟩

/-- The material constructed at the top of `createMaterial`:
`WOOD_TYPES[woodType] || "spruce"` selects the wood key (the `||` fallback
fires exactly when the lookup is `undefined`, since all table values are
non-empty strings), then the base colour and the initial scalar fields are
set. -/
def baseState (woodType : String) : MatState :=
  let woodKey := (WOOD_TYPES woodType).getD ("spruce")
  { color := WOOD_COLORS woodKey
    roughness := 0.65
    metalness := 0
    envMapIntensity := 1 }

/-- The `switch (surfaceKey)` block of `createMaterial` ("Apply surface
effects first"); an unrecognized surface matches no case and leaves the
material unchanged. -/
def applySurface (surface : String) (m : MatState) : MatState :=
  match SURFACE_TYPES surface with
  | some ("rough") =>
    { m with roughness := 0.9, metalness := 0.02, envMapIntensity := 0.5 }
  | some ("grooved") =>
    { m with roughness := 0.75, metalness := 0.05, envMapIntensity := 0.8 }
  | some ("planed") =>
    { m with roughness := 0.4, metalness := 0.1, envMapIntensity := 1.2 }
  | some ("smooth") =>
    { m with roughness := 0.55, metalness := 0.08, envMapIntensity := 1 }
  | _ => m

/-- The `switch (treatment)` block of `createMaterial` ("Apply treatment
effects").  For the two colour-carrying treatments the whole case body sits
inside `if (finishColor) { ... }` in the source, so with no finish colour
nothing at all happens in that case. -/
def applyTreatment (treatment : String) (finishColor : Option Color3)
    (m : MatState) : MatState :=
  match treatment with
  | "Vorvergraut" =>
    { m with
      color := m.color.lerp ⟨0.75, 0.75, 0.77⟩ 0.7
      roughness := min (m.roughness + 0.15) 1
      metalness := max (m.metalness - 0.02) 0
      envMapIntensity := m.envMapIntensity * 0.7 }
  | "Lasur (UV-Schutz)" =>
    match finishColor with
    | some c =>
      { m with
        color := m.color.lerp c 0.4
        roughness := max (m.roughness - 0.1) 0
        metalness := min (m.metalness + 0.05) 1
        envMapIntensity := m.envMapIntensity * 1.2 }
    | none => m
  | "Deckend (Pigmentiert)" =>
    match finishColor with
    | some c =>
      { m with
        color := m.color.lerp c 0.85
        roughness := max (m.roughness - 0.2) 0
        metalness := min (m.metalness + 0.08) 1
        envMapIntensity := m.envMapIntensity * 1.3 }
    | none => m
  | "Hydrophobiert" =>
    { m with
      color := m.color.mulScalar 0.95
      roughness := max (m.roughness - 0.15) 0
      metalness := min (m.metalness + 0.1) 1
      envMapIntensity := m.envMapIntensity * 1.4 }
  | "Thermisch behandelt" =>
    { m with
      color := m.color.lerp ⟨0.3, 0.2, 0.15⟩ 0.6
      roughness := min (m.roughness + 0.1) 1
      metalness := min (m.metalness + 0.06) 1
      envMapIntensity := m.envMapIntensity * 0.9 }
  | _ => m

/-- The per-treatment scaling of `agingIntensity` inside the aging block of
`createMaterial` (the `if/else if` chain on `treatment`). -/
def agingMultiplier (treatment : String) : ℚ :=
  if treatment = "Vorvergraut" then 1.2
  else if treatment = "Lasur (UV-Schutz)" ∨ treatment = "Hydrophobiert" then 0.6
  else if treatment = "Deckend (Pigmentiert)" then 0.4
  else 1

/-- The grey aging target colour of `createMaterial`. -/
def agingGrey : Color3 := ⟨0.7, 0.7, 0.72⟩

/-- The `if (age > 1)` aging block of `createMaterial` ("Apply aging effects
last"). -/
def applyAging (age : ℚ) (treatment : String) (m : MatState) : MatState :=
  if 1 < age then
    let agingFactor := min ((age - 1) / 9) 1
    let agingIntensity := agingFactor * agingMultiplier treatment
    { color := m.color.lerp agingGrey agingIntensity
      roughness := min (m.roughness + agingIntensity * 0.3) 1
      metalness := max (m.metalness - agingIntensity * 0.05) 0
      envMapIntensity := m.envMapIntensity * (1 - agingIntensity * 0.3) }
  else m

/-- `createMaterial` from src/utils/materialUtils.ts: base material, then the
surface stage, then the treatment stage, then the aging stage, each mutating
the state left by the previous stage.  The optional CSS colour string
`finishColor` is modelled as the RGB value it parses to. -/
def createMaterial (woodType surface : String) (age : ℚ) (treatment : String)
    (finishColor : Option Color3) : MatState :=
  applyAging age treatment
    (applyTreatment treatment finishColor (applySurface surface (baseState woodType)))

/-- Squared RGB distance between two colours (used to measure how close the
computed colour is to the aging target). -/
def distSqC (c d : Color3) : ℚ :=
  (c.r - d.r) ^ 2 + (c.g - d.g) ^ 2 + (c.b - d.b) ^ 2

/-- The clamp invariant: roughness and metalness in `[0,1]`, reflection
intensity nonnegative. -/
def Bounded (m : MatState) : Prop :=
  0 ≤ m.roughness ∧ m.roughness ≤ 1 ∧ 0 ≤ m.metalness ∧ m.metalness ≤ 1 ∧
    0 ≤ m.envMapIntensity

lemma baseState_bounded (woodType : String) : Bounded (baseState woodType) := by
  refine ⟨?_, ?_, ?_, ?_, ?_⟩ <;> norm_num [baseState]

lemma applySurface_bounded (surface : String) (m : MatState) (h : Bounded m) :
    Bounded (applySurface surface m) := by
  unfold applySurface
  split
  · exact ⟨by norm_num, by norm_num, by norm_num, by norm_num, by norm_num⟩
  · exact ⟨by norm_num, by norm_num, by norm_num, by norm_num, by norm_num⟩
  · exact ⟨by norm_num, by norm_num, by norm_num, by norm_num, by norm_num⟩
  · exact ⟨by norm_num, by norm_num, by norm_num, by norm_num, by norm_num⟩
  · exact h

lemma applyTreatment_bounded (treatment : String) (finishColor : Option Color3)
    (m : MatState) (h : Bounded m) : Bounded (applyTreatment treatment finishColor m) := by
  obtain ⟨h1, h2, h3, h4, h5⟩ := h
  unfold applyTreatment
  split
  · exact ⟨le_min (by linarith) (by norm_num), min_le_right _ _,
      le_max_right _ _, max_le (by linarith) (by norm_num),
      mul_nonneg h5 (by norm_num)⟩
  · split
    · exact ⟨le_max_right _ _, max_le (by linarith) (by norm_num),
        le_min (by linarith) (by norm_num), min_le_right _ _,
        mul_nonneg h5 (by norm_num)⟩
    · exact ⟨h1, h2, h3, h4, h5⟩
  · split
    · exact ⟨le_max_right _ _, max_le (by linarith) (by norm_num),
        le_min (by linarith) (by norm_num), min_le_right _ _,
        mul_nonneg h5 (by norm_num)⟩
    · exact ⟨h1, h2, h3, h4, h5⟩
  · exact ⟨le_max_right _ _, max_le (by linarith) (by norm_num),
      le_min (by linarith) (by norm_num), min_le_right _ _,
      mul_nonneg h5 (by norm_num)⟩
  · exact ⟨le_min (by linarith) (by norm_num), min_le_right _ _,
      le_min (by linarith) (by norm_num), min_le_right _ _,
      mul_nonneg h5 (by norm_num)⟩
  · exact ⟨h1, h2, h3, h4, h5⟩

lemma agingMultiplier_bounds (treatment : String) :
    0 ≤ agingMultiplier treatment ∧ agingMultiplier treatment ≤ 1.2 := by
  unfold agingMultiplier
  split_ifs <;> norm_num

lemma applyAging_bounded (age : ℚ) (treatment : String) (m : MatState)
    (h : Bounded m) : Bounded (applyAging age treatment m) := by
  obtain ⟨h1, h2, h3, h4, h5⟩ := h
  obtain ⟨hM0, hM1⟩ := agingMultiplier_bounds treatment
  unfold applyAging
  split
  · rename_i hage
    dsimp only
    set F := min ((age - 1) / 9) 1 with hF
    have hF0 : 0 ≤ F := le_min (div_nonneg (by linarith) (by norm_num)) (by norm_num)
    have hF1 : F ≤ 1 := min_le_right _ _
    have haI0 : 0 ≤ F * agingMultiplier treatment := mul_nonneg hF0 hM0
    have haI1 : F * agingMultiplier treatment ≤ 1.2 := by nlinarith
    refine ⟨le_min (by nlinarith) (by norm_num), min_le_right _ _,
      le_max_right _ _, max_le (by nlinarith) (by norm_num),
      mul_nonneg h5 (by nlinarith)⟩
  · exact ⟨h1, h2, h3, h4, h5⟩

/-- C3: for every species, surface finish, treatment (with or without a
finish colour) and age in `[1,10]`, the shading state computed by
`createMaterial` has roughness and metalness in `[0,1]` and a nonnegative
reflection intensity (`envMapIntensity`). -/
theorem createMaterial_clamp_invariant (woodType surface treatment : String)
    (finishColor : Option Color3) (age : ℚ) (h1 : 1 ≤ age) (h2 : age ≤ 10) :
    0 ≤ (createMaterial woodType surface age treatment finishColor).roughness ∧
    (createMaterial woodType surface age treatment finishColor).roughness ≤ 1 ∧
    0 ≤ (createMaterial woodType surface age treatment finishColor).metalness ∧
    (createMaterial woodType surface age treatment finishColor).metalness ≤ 1 ∧
    0 ≤ (createMaterial woodType surface age treatment finishColor).envMapIntensity :=
  applyAging_bounded age treatment _
    (applyTreatment_bounded treatment finishColor _
      (applySurface_bounded surface _ (baseState_bounded woodType)))

/-- Witness for C3 at a concrete input. -/
theorem createMaterial_clamp_invariant_witness :
    (1 : ℚ) ≤ 7 ∧ (7 : ℚ) ≤ 10 ∧
    (0 ≤ (createMaterial ("Lärche") ("Sägerau") 7 ("Hydrophobiert") none).roughness ∧
     (createMaterial ("Lärche") ("Sägerau") 7 ("Hydrophobiert") none).roughness ≤ 1 ∧
     0 ≤ (createMaterial ("Lärche") ("Sägerau") 7 ("Hydrophobiert") none).metalness ∧
     (createMaterial ("Lärche") ("Sägerau") 7 ("Hydrophobiert") none).metalness ≤ 1 ∧
     0 ≤ (createMaterial ("Lärche") ("Sägerau") 7 ("Hydrophobiert") none).envMapIntensity) :=
  ⟨by norm_num, by norm_num,
    createMaterial_clamp_invariant ("Lärche") ("Sägerau") ("Hydrophobiert") none 7
      (by norm_num) (by norm_num)⟩

/-- C1 counterexample: with treatment Glazed (Lasur) and no finish colour,
the whole treatment case body is skipped, so the computed roughness stays at
the surface-stage value 0.4 instead of the claimed clamped adjustment
`max (0.4 - 0.1) 0 = 0.3`. -/
theorem glazedNoColor_counterexample :
    (createMaterial ("Fichte/Tanne") ("Gehobelt") 1 ("Lasur (UV-Schutz)") none).roughness
      = 0.4 ∧
    max ((applySurface ("Gehobelt") (baseState ("Fichte/Tanne"))).roughness - 0.1) 0
      = 0.3 ∧
    (0.4 : ℚ) ≠ 0.3 := by
  refine ⟨?_, ?_, by norm_num⟩ <;>
    norm_num [createMaterial, applySurface, applyTreatment, applyAging,
      baseState, SURFACE_TYPES, WOOD_TYPES, WOOD_COLORS]

/-- C1 amended: when the treatment is Glazed or Opaque and no finish colour
is supplied, `createMaterial` skips the entire treatment stage (colour blend
and the roughness/metalness/reflection adjustments alike) and degenerates to
surface stage followed by aging stage; it never fails. -/
theorem glazedOrOpaque_noColor_skips_stage (woodType surface : String)
    (age : ℚ) (treatment : String)
    (h : treatment = "Lasur (UV-Schutz)" ∨ treatment = "Deckend (Pigmentiert)") :
    createMaterial woodType surface age treatment none
      = applyAging age treatment (applySurface surface (baseState woodType)) := by
  rcases h with h | h <;> subst h <;> rfl

/-- Witness for the amended C1 at a concrete input. -/
theorem glazedOrOpaque_noColor_skips_stage_witness :
    (("Lasur (UV-Schutz)") = "Lasur (UV-Schutz)" ∨
      ("Lasur (UV-Schutz)") = "Deckend (Pigmentiert)") ∧
    createMaterial ("Fichte/Tanne") ("Sägerau") 5 ("Lasur (UV-Schutz)") none
      = applyAging 5 ("Lasur (UV-Schutz)")
          (applySurface ("Sägerau") (baseState ("Fichte/Tanne"))) :=
  ⟨Or.inl rfl,
    glazedOrOpaque_noColor_skips_stage ("Fichte/Tanne") ("Sägerau") 5
      ("Lasur (UV-Schutz)") (Or.inl rfl)⟩

lemma applyTreatment_unknown (treatment : String)
    (h : treatment ∉ (["Unbehandelt", "Vorvergraut", "Lasur (UV-Schutz)",
      "Deckend (Pigmentiert)", "Hydrophobiert", "Thermisch behandelt"] : List String))
    (finishColor : Option Color3) (m : MatState) :
    applyTreatment treatment finishColor m = m := by
  simp only [List.mem_cons, List.not_mem_nil, or_false, not_or] at h
  unfold applyTreatment
  split <;> simp_all

lemma agingMultiplier_unknown (treatment : String)
    (h : treatment ∉ (["Unbehandelt", "Vorvergraut", "Lasur (UV-Schutz)",
      "Deckend (Pigmentiert)", "Hydrophobiert", "Thermisch behandelt"] : List String)) :
    agingMultiplier treatment = 1 := by
  simp only [List.mem_cons, List.not_mem_nil, or_false, not_or] at h
  unfold agingMultiplier
  split_ifs <;> simp_all

/-- C9: unrecognized categorical inputs fall back to defaults and never
fail: an unknown wood species behaves exactly like Spruce/Fir, an unknown
surface finish leaves the base material values untouched, and an unknown
treatment behaves exactly like Untreated; in every case a complete shading
state is produced. -/
theorem unrecognized_inputs_default (woodType surface treatment : String)
    (age : ℚ) (finishColor : Option Color3) :
    (WOOD_TYPES woodType = none →
      createMaterial woodType surface age treatment finishColor
        = createMaterial ("Fichte/Tanne") surface age treatment finishColor) ∧
    (SURFACE_TYPES surface = none →
      ∀ m : MatState, applySurface surface m = m) ∧
    (treatment ∉ (["Unbehandelt", "Vorvergraut", "Lasur (UV-Schutz)",
        "Deckend (Pigmentiert)", "Hydrophobiert", "Thermisch behandelt"] : List String) →
      createMaterial woodType surface age treatment finishColor
        = createMaterial woodType surface age ("Unbehandelt") finishColor) := by
  refine ⟨fun h => ?_, fun h m => ?_, fun h => ?_⟩
  · unfold createMaterial baseState
    rw [h]
    rfl
  · unfold applySurface
    rw [h]
  · unfold createMaterial
    rw [applyTreatment_unknown treatment h,
      show applyTreatment ("Unbehandelt") finishColor
          (applySurface surface (baseState woodType))
        = applySurface surface (baseState woodType) from rfl]
    unfold applyAging
    rw [agingMultiplier_unknown treatment h,
      show agingMultiplier ("Unbehandelt") = 1 from rfl]

/-- The effective colour-blend weight applied by the aging stage: zero for
`age ≤ 1`, otherwise the clamped normalized age times the per-treatment
multiplier.  Note the multiplier is applied after the clamp, so the weight
can exceed 1 (PreAged). -/
def agingWeight (age : ℚ) (treatment : String) : ℚ :=
  if 1 < age then min ((age - 1) / 9) 1 * agingMultiplier treatment else 0

lemma applyAging_color (age : ℚ) (treatment : String) (m : MatState) :
    (applyAging age treatment m).color
      = m.color.lerp agingGrey (agingWeight age treatment) := by
  unfold applyAging agingWeight
  split
  · rfl
  · cases m.color
    simp [Color3.lerp]

lemma distSqC_lerp (c g : Color3) (w : ℚ) :
    distSqC (c.lerp g w) g = (1 - w) ^ 2 * distSqC c g := by
  cases c
  cases g
  simp only [Color3.lerp, distSqC]
  ring

lemma agingWeight_nonneg (age : ℚ) (treatment : String) :
    0 ≤ agingWeight age treatment := by
  unfold agingWeight
  split
  · exact mul_nonneg
      (le_min (div_nonneg (by linarith) (by norm_num)) (by norm_num))
      (agingMultiplier_bounds treatment).1
  · exact le_refl 0

lemma agingWeight_le_one (age : ℚ) (treatment : String)
    (h : agingMultiplier treatment ≤ 1) : agingWeight age treatment ≤ 1 := by
  unfold agingWeight
  split
  · rename_i hage
    have h0 := (agingMultiplier_bounds treatment).1
    have hF1 : min ((age - 1) / 9) 1 ≤ 1 := min_le_right _ _
    have hF0 : 0 ≤ min ((age - 1) / 9) 1 :=
      le_min (div_nonneg (by linarith) (by norm_num)) (by norm_num)
    nlinarith
  · norm_num

lemma agingWeight_mono (treatment : String) (a b : ℚ) (hab : a ≤ b) :
    agingWeight a treatment ≤ agingWeight b treatment := by
  have h0 := (agingMultiplier_bounds treatment).1
  unfold agingWeight
  split_ifs with ha hb
  · refine mul_le_mul_of_nonneg_right (min_le_min (by linarith) le_rfl) h0
  · linarith
  · exact mul_nonneg
      (le_min (div_nonneg (by linarith) (by norm_num)) (by norm_num)) h0
  · exact le_refl 0

lemma agingMultiplier_le_one (treatment : String)
    (h : treatment ≠ "Vorvergraut") : agingMultiplier treatment ≤ 1 := by
  unfold agingMultiplier
  split_ifs <;> simp_all <;> norm_num

/-- C4 counterexample: for PreAged (Vorvergraut) the aging multiplier 1.2 is
applied after the age clamp, so the blend weight exceeds 1 at high ages and
the colour overshoots the grey target: from age 9 to age 10 the squared
distance to the target increases. -/
theorem aging_monotone_counterexample :
    distSqC (createMaterial ("Fichte/Tanne") ("Gehobelt") 9
        ("Vorvergraut") none).color agingGrey
      < distSqC (createMaterial ("Fichte/Tanne") ("Gehobelt") 10
        ("Vorvergraut") none).color agingGrey := by
  norm_num [createMaterial, applySurface, applyTreatment, applyAging, baseState,
    SURFACE_TYPES, WOOD_TYPES, agingMultiplier, agingGrey, distSqC,
    Color3.lerp, min_def,
    show WOOD_COLORS ("spruce") = ⟨0.8, 0.7, 0.5⟩ from rfl]

/-- C4 amended: for a fixed species, finish and treatment other than PreAged
(whose multiplier 1.2 lets the unclamped blend weight pass 1 and overshoot
the target between age 9 and 10), increasing the age within `[1,10]` moves
the output colour of `createMaterial` monotonically closer (non-increasing
squared distance) to the grey aging target. -/
theorem aging_monotone_except_preaged (woodType surface treatment : String)
    (finishColor : Option Color3) (a b : ℚ) (ht : treatment ≠ "Vorvergraut")
    (h1 : 1 ≤ a) (hab : a ≤ b) (hb : b ≤ 10) :
    distSqC (createMaterial woodType surface b treatment finishColor).color agingGrey
      ≤ distSqC (createMaterial woodType surface a treatment finishColor).color
          agingGrey := by
  unfold createMaterial
  rw [applyAging_color, applyAging_color, distSqC_lerp, distSqC_lerp]
  have hd : 0 ≤ distSqC (applyTreatment treatment finishColor
      (applySurface surface (baseState woodType))).color agingGrey := by
    unfold distSqC
    positivity
  have hwa0 : 0 ≤ agingWeight a treatment := agingWeight_nonneg a treatment
  have hwb1 : agingWeight b treatment ≤ 1 :=
    agingWeight_le_one b treatment (agingMultiplier_le_one treatment ht)
  have hmono : agingWeight a treatment ≤ agingWeight b treatment :=
    agingWeight_mono treatment a b hab
  have hsq : (1 - agingWeight b treatment) ^ 2
      ≤ (1 - agingWeight a treatment) ^ 2 := by nlinarith
  exact mul_le_mul_of_nonneg_right hsq hd

/-- Witness for the amended C4 at a concrete input. -/
theorem aging_monotone_except_preaged_witness :
    ("Thermisch behandelt" : String) ≠ "Vorvergraut" ∧ (1 : ℚ) ≤ 2 ∧
    (2 : ℚ) ≤ 6 ∧ (6 : ℚ) ≤ 10 ∧
    distSqC (createMaterial ("Douglasie") ("Gerillt") 6
        ("Thermisch behandelt") none).color agingGrey
      ≤ distSqC (createMaterial ("Douglasie") ("Gerillt") 2
        ("Thermisch behandelt") none).color agingGrey :=
  ⟨by simp, by norm_num, by norm_num, by norm_num,
    aging_monotone_except_preaged ("Douglasie") ("Gerillt")
      ("Thermisch behandelt") none 2 6 (by simp) (by norm_num) (by norm_num)
      (by norm_num)⟩

/-- Witness for C9 at concrete unrecognized inputs. -/
theorem unrecognized_inputs_default_witness :
    (WOOD_TYPES ("Eiche") = none →
      createMaterial ("Eiche") ("Poliert") 4 ("Geölt") none
        = createMaterial ("Fichte/Tanne") ("Poliert") 4 ("Geölt") none) ∧
    (SURFACE_TYPES ("Poliert") = none →
      ∀ m : MatState, applySurface ("Poliert") m = m) ∧
    (("Geölt") ∉ (["Unbehandelt", "Vorvergraut", "Lasur (UV-Schutz)",
        "Deckend (Pigmentiert)", "Hydrophobiert", "Thermisch behandelt"] : List String) →
      createMaterial ("Eiche") ("Poliert") 4 ("Geölt") none
        = createMaterial ("Eiche") ("Poliert") 4 ("Unbehandelt") none) :=
  unrecognized_inputs_default ("Eiche") ("Poliert") ("Geölt") 4 none

/-! Scene model for the SceneController: meshes carry a raw vertex position
buffer, a world matrix and a material; the scene is the traversal sequence
of a three.js scene graph (non-mesh nodes appear as `other`). -/

/-- A 3D vector with rational coordinates (three.js `Vector3`). -/
structure Vec3 where
  x : ℚ
  y : ℚ
  z : ℚ
deriving DecidableEq

/-- A 2D vector (three.js `Vector2`); the section extractor stores world
(x, z) pairs in it. -/
structure Vec2 where
  x : ℚ
  y : ℚ
deriving DecidableEq

/-- three.js `Plane(normal, constant)` as built by `toggleClipping`. -/
structure ClipPlane where
  normal : Vec3
  constant : ℚ
deriving DecidableEq

/-- The material fields touched by the scene controller: the shading state
written by `createMaterial` plus the clipping fields mutated by
`toggleClipping`. -/
structure Material where
  shading : MatState
  clippingPlanes : List ClipPlane
  clipShadows : Bool
deriving DecidableEq

/-- The affine part of a three.js `Matrix4` (the world matrices of the
viewer are affine, so `Vector3.applyMatrix4`'s perspective divide is by 1):
columns of the linear part plus a translation. -/
structure AffineM where
  colX : Vec3
  colY : Vec3
  colZ : Vec3
  trans : Vec3
deriving DecidableEq

/-- `Vector3.applyMatrix4` for an affine matrix. -/
def AffineM.apply (T : AffineM) (v : Vec3) : Vec3 :=
  ⟨T.colX.x * v.x + T.colY.x * v.y + T.colZ.x * v.z + T.trans.x,
   T.colX.y * v.x + T.colY.y * v.y + T.colZ.y * v.z + T.trans.y,
   T.colX.z * v.x + T.colY.z * v.y + T.colZ.z * v.z + T.trans.z⟩

/-- The identity world matrix. -/
def idM : AffineM := ⟨⟨1, 0, 0⟩, ⟨0, 1, 0⟩, ⟨0, 0, 1⟩, ⟨0, 0, 0⟩⟩

/-- A mesh node: geometry position buffer (local coordinates), world matrix,
and material.  The source also supports per-mesh material arrays, updated
elementwise exactly like a single material; one material per mesh suffices
for the modelled behaviour. -/
structure MeshObj where
  vertices : List Vec3
  matrixWorld : AffineM
  material : Material
deriving DecidableEq

/-- A node of the scene in traversal order: a mesh with geometry, or any
other object (lights, groups, ...) that `traverse` visits but the
controller ignores. -/
inductive SceneNode
  | mesh (m : MeshObj)
  | other
deriving DecidableEq

/-- Axis-aligned bounding box (three.js `Box3`); the empty box is
represented by `Option.none` at use sites. -/
structure Box3 where
  min : Vec3
  max : Vec3
deriving DecidableEq

/-- `Box3.expandByPoint`. -/
def expandByPoint (b : Box3) (v : Vec3) : Box3 :=
  ⟨⟨min b.min.x v.x, min b.min.y v.y, min b.min.z v.z⟩,
   ⟨max b.max.x v.x, max b.max.y v.y, max b.max.z v.z⟩⟩

/-- `Box3.setFromPoints`: `none` models three.js's empty box
(min = +∞, max = −∞). -/
def setFromPoints : List Vec3 → Option Box3
  | [] => none
  | v :: vs => some (vs.foldl expandByPoint ⟨v, v⟩)

/-- The eight corners of a box, in the order `Box3.applyMatrix4` visits
them. -/
def boxCorners (b : Box3) : List Vec3 :=
  [⟨b.min.x, b.min.y, b.min.z⟩, ⟨b.min.x, b.min.y, b.max.z⟩,
   ⟨b.min.x, b.max.y, b.min.z⟩, ⟨b.min.x, b.max.y, b.max.z⟩,
   ⟨b.max.x, b.min.y, b.min.z⟩, ⟨b.max.x, b.min.y, b.max.z⟩,
   ⟨b.max.x, b.max.y, b.min.z⟩, ⟨b.max.x, b.max.y, b.max.z⟩]

/-- `Box3.applyMatrix4`: transform the eight corners and take their
bounding box. -/
def applyMatrixBox (T : AffineM) (b : Box3) : Box3 :=
  match (boxCorners b).map T.apply with
  | [] => b
  | v :: vs => vs.foldl expandByPoint ⟨v, v⟩

/-- `new Box3().setFromObject(mesh)`: the geometry's local bounding box
transformed by the mesh's world matrix (a mesh node has no children). -/
def worldBox (m : MeshObj) : Option Box3 :=
  (setFromPoints m.vertices).map (applyMatrixBox m.matrixWorld)

/-- `Box3.getSize`, which returns the zero vector for the empty box. -/
def boxSize : Option Box3 → Vec3
  | none => ⟨0, 0, 0⟩
  | some b => ⟨b.max.x - b.min.x, b.max.y - b.min.y, b.max.z - b.min.z⟩

/-- `Box3.getCenter`, which returns the zero vector for the empty box. -/
def boxCenter : Option Box3 → Vec3
  | none => ⟨0, 0, 0⟩
  | some b =>
    ⟨(b.min.x + b.max.x) / 2, (b.min.y + b.max.y) / 2, (b.min.z + b.max.z) / 2⟩

/-- The bounding-box footprint area `size.x * size.y` used by
`findFacadeMesh`. -/
def meshArea (m : MeshObj) : ℚ :=
  (boxSize (worldBox m)).x * (boxSize (worldBox m)).y

/-- The traversal loop of `findFacadeMesh`: running best mesh and `maxArea`
(initially `null` and `0`), replaced on strictly greater footprint area. -/
def facadeAux : List SceneNode → Option MeshObj → ℚ → Option MeshObj
  | [], best, _ => best
  | .mesh m :: rest, best, maxArea =>
    if meshArea m > maxArea then facadeAux rest (some m) (meshArea m)
    else facadeAux rest best maxArea
  | .other :: rest, best, maxArea => facadeAux rest best maxArea

/-- `findFacadeMesh` from the SceneController. -/
def findFacadeMesh (scene : List SceneNode) : Option MeshObj :=
  facadeAux scene none 0

/-- The meshes of the scene in traversal order. -/
def sceneMeshes (scene : List SceneNode) : List MeshObj :=
  scene.filterMap fun n =>
    match n with
    | .mesh m => some m
    | .other => none

/-- The clip height computed by `toggleClipping`:
`bottomY + 0.5` where `bottomY = center.y - size.y / 2` of the facade's
world bounding box. -/
def meshClipHeight (fm : MeshObj) : ℚ :=
  (boxCenter (worldBox fm)).y - (boxSize (worldBox fm)).y / 2 + 0.5

/-- The deduplication key `x.toFixed(4) + "," + z.toFixed(4)` of the section
extractor, modelled by rounding both coordinates to 4 decimal places. -/
def pointKey (v : Vec3) : ℤ × ℤ :=
  (round (v.x * 10000), round (v.z * 10000))

/-- The vertex-collection loop of `toggleClipping`: walk the position
buffer, transform to world space, keep vertices whose world y is within
0.01 of the clip height, and deduplicate by rounded key keeping the first
occurrence (a JS `Map` preserves insertion order). -/
def collectSectionPoints (fm : MeshObj) (clipHeight : ℚ) : List Vec2 :=
  (fm.vertices.foldl
    (fun (acc : List ((ℤ × ℤ) × Vec2)) lv =>
      let v := fm.matrixWorld.apply lv
      if |v.y - clipHeight| < 0.01 then
        let k := pointKey v
        if acc.any (fun p => p.1 = k) then acc else acc ++ [(k, ⟨v.x, v.z⟩)]
      else acc)
    []).map Prod.snd

/-- Squared 2D distance (`Vector2.distanceToSquared`). -/
def distSq2 (p q : Vec2) : ℚ :=
  (p.x - q.x) ^ 2 + (p.y - q.y) ^ 2

/-- One pass of the nearest-neighbour selection of `toggleClipping`'s point
sorter: return the remaining point nearest to `current` (the earliest on
ties, as the source compares with strict `<`) together with the other
points in their original order (the source splices the winner out). -/
def pickNearest (current : Vec2) : Vec2 → List Vec2 → Vec2 × List Vec2
  | best, [] => (best, [])
  | best, q :: qs =>
    if distSq2 current q < distSq2 current best then
      let r := pickNearest current q qs
      (r.1, best :: r.2)
    else
      let r := pickNearest current best qs
      (r.1, q :: r.2)

/-- The greedy nearest-neighbour chaining loop; the fuel argument is the
number of remaining points, which `pickNearest` preserves exactly, so the
fuel never runs out on the actual call. -/
def nnChain : Nat → Vec2 → List Vec2 → List Vec2
  | 0, _, _ => []
  | n + 1, current, remaining =>
    match remaining with
    | [] => []
    | q :: qs =>
      let r := pickNearest current q qs
      r.1 :: nnChain n r.1 r.2

/-- `sortedPoints` of `toggleClipping`: start at the first collected point
and repeatedly append the nearest remaining point. -/
def sortPoints (pts : List Vec2) : List Vec2 :=
  match pts with
  | [] => []
  | p :: rest => p :: nnChain rest.length p rest

/-- One `onSectionUpdate(points, enabled)` call published to the UI. -/
structure SectionUpdate where
  points : List Vec2
  enabled : Bool
deriving DecidableEq

/-- The state the SceneController closes over: the `clippingEnabled` React
state and the scene graph. -/
structure ControllerState where
  clippingEnabled : Bool
  scene : List SceneNode
deriving DecidableEq

/-- The per-material mutation of `toggleClipping`'s final traversal:
install the clip plane when enabling, clear when disabling. -/
def clippedMaterial (enable : Bool) (plane : ClipPlane) (mat : Material) : Material :=
  if enable then { mat with clippingPlanes := [plane], clipShadows := true }
  else { mat with clippingPlanes := [], clipShadows := false }

/-- A mesh with `clippedMaterial` applied to its material. -/
def clipMesh (enable : Bool) (plane : ClipPlane) (m : MeshObj) : MeshObj :=
  { m with material := clippedMaterial enable plane m.material }

/-- `toggleClipping`'s final traversal applied to one scene node. -/
def setClipping (enable : Bool) (plane : ClipPlane) : SceneNode → SceneNode
  | .mesh m => .mesh (clipMesh enable plane m)
  | .other => .other

/-- `toggleClipping` from the SceneController.  Returns the new controller
state and the list of `onSectionUpdate` calls made, in order.  When
disabling, `onSectionUpdate([], false)` fires first; everything else is
guarded by finding a facade mesh.  The `sectionOutline` visualization mesh
is created but never added to the scene in the source (the `scene.add` call
is commented out), so no scene nodes are added or removed. -/
def toggleClipping (st : ControllerState) : ControllerState × List SectionUpdate :=
  let newClippingState := !st.clippingEnabled
  let offUpdates : List SectionUpdate :=
    if newClippingState then [] else [⟨[], false⟩]
  match findFacadeMesh st.scene with
  | none => ({ st with clippingEnabled := newClippingState }, offUpdates)
  | some fm =>
    let clipHeight := meshClipHeight fm
    let plane : ClipPlane := ⟨⟨0, -1, 0⟩, clipHeight⟩
    let onUpdates : List SectionUpdate :=
      if newClippingState then
        let points := collectSectionPoints fm clipHeight
        if points.length > 1 then [⟨sortPoints points, true⟩] else [⟨[], true⟩]
      else []
    ({ clippingEnabled := newClippingState
       scene := st.scene.map (setClipping newClippingState plane) },
     offUpdates ++ onUpdates)

/-- The categorical inputs of the configurator. -/
structure MaterialParams where
  woodType : String
  surface : String
  age : ℚ
  treatment : String
  finishColor : Option Color3
deriving DecidableEq

/-- A freshly constructed `MeshStandardMaterial` as produced by
`createMaterial`: its clipping fields have their constructor defaults
(no clipping planes, `clipShadows` off). -/
def freshMaterial (p : MaterialParams) : Material :=
  { shading := createMaterial p.woodType p.surface p.age p.treatment p.finishColor
    clippingPlanes := []
    clipShadows := false }

/-- The material-applying effect of `CustomModel`: every mesh's material is
replaced wholesale by a fresh material from `createMaterial`. -/
def applyMaterials (p : MaterialParams) : SceneNode → SceneNode
  | .mesh m => .mesh { m with material := freshMaterial p }
  | .other => .other

/-- Recomputing the configurator material over the whole scene
(`CustomModel`'s traversal); it publishes no section update and does not
touch `clippingEnabled`. -/
def recomputeMaterials (p : MaterialParams) (st : ControllerState) : ControllerState :=
  { st with scene := st.scene.map (applyMaterials p) }

/-- Clip-plane list of a node (empty for non-meshes). -/
def nodeClipPlanes : SceneNode → List ClipPlane
  | .mesh m => m.material.clippingPlanes
  | .other => []

/-- `clipShadows` flag of a node (off for non-meshes). -/
def nodeClipShadows : SceneNode → Bool
  | .mesh m => m.material.clipShadows
  | .other => false

/-- Shading parameters of a node's material (none for non-meshes). -/
def nodeShading : SceneNode → Option MatState
  | .mesh m => some m.material.shading
  | .other => none

/-- A plain untreated material (base spruce shading, no clipping), used in
the concrete scenes below. -/
def mat0 : Material := ⟨⟨⟨0.8, 0.7, 0.5⟩, 0.65, 0, 1⟩, [], false⟩

/-- A facade mesh whose geometry has exactly one vertex at the computed clip
height (bounding box spans y ∈ [0,2], so the clip height is 0.5, and only
the vertex (1, 0.5, 1) lies within tolerance). -/
def c2Mesh : MeshObj := ⟨[⟨0, 0, 0⟩, ⟨1, 0.5, 1⟩, ⟨0, 2, 0⟩], idM, mat0⟩

lemma c2Mesh_clipHeight : meshClipHeight c2Mesh = 1 / 2 := by
  norm_num [meshClipHeight, worldBox, setFromPoints, expandByPoint,
    applyMatrixBox, boxCorners, boxSize, boxCenter, AffineM.apply, idM,
    c2Mesh, mat0, min_def, max_def]

lemma c2Mesh_points : collectSectionPoints c2Mesh (1 / 2) = [⟨1, 1⟩] := by
  norm_num [collectSectionPoints, pointKey, AffineM.apply, idM, c2Mesh, mat0,
    abs_of_nonneg, abs_of_nonpos]

lemma c2Mesh_facade : findFacadeMesh [.mesh c2Mesh] = some c2Mesh := by
  norm_num [findFacadeMesh, facadeAux, meshArea, worldBox, setFromPoints,
    expandByPoint, applyMatrixBox, boxCorners, boxSize, AffineM.apply, idM,
    c2Mesh, mat0, min_def, max_def]

/-- C2 counterexample: on `c2Mesh` the extractor finds exactly one boundary
point, (1, 1), yet `toggleClipping` publishes the empty polygon rather than
the single-point sequence. -/
theorem degenerate_section_counterexample :
    collectSectionPoints c2Mesh (meshClipHeight c2Mesh) = [⟨1, 1⟩] ∧
    (toggleClipping ⟨false, [.mesh c2Mesh]⟩).2 = [⟨[], true⟩] ∧
    ([] : List Vec2) ≠ [⟨1, 1⟩] := by
  refine ⟨by rw [c2Mesh_clipHeight]; exact c2Mesh_points, ?_, by simp⟩
  norm_num [toggleClipping, findFacadeMesh, facadeAux, meshArea, worldBox,
    setFromPoints, expandByPoint, applyMatrixBox, boxCorners, boxSize,
    boxCenter, meshClipHeight, collectSectionPoints, pointKey, AffineM.apply,
    idM, c2Mesh, mat0, min_def, max_def, abs_of_nonneg, abs_of_nonpos]

/-- C2 amended: when the section extractor finds zero or one boundary point
within tolerance of the clip height, `toggleClipping` publishes the empty
sequence in both cases (the one-point set is not forwarded), as a valid
non-error outcome with the section marked enabled. -/
theorem degenerate_section_publishes_empty (st : ControllerState)
    (fm : MeshObj) (h1 : st.clippingEnabled = false)
    (h2 : findFacadeMesh st.scene = some fm)
    (h3 : (collectSectionPoints fm (meshClipHeight fm)).length ≤ 1) :
    (toggleClipping st).2 = [⟨[], true⟩] := by
  unfold toggleClipping
  rw [h1, h2]
  simp only [Bool.not_false, if_true, List.nil_append]
  rw [if_neg (by omega)]

/-- Witness for the amended C2 at a concrete input. -/
theorem degenerate_section_publishes_empty_witness :
    (toggleClipping ⟨false, [.mesh c2Mesh]⟩).2 = [⟨[], true⟩] :=
  degenerate_section_publishes_empty ⟨false, [.mesh c2Mesh]⟩ c2Mesh rfl
    c2Mesh_facade
    (by rw [c2Mesh_clipHeight, c2Mesh_points]; norm_num)

/-- C10: toggling the section on a scene in which no facade mesh is found
still flips the internal clipping boolean, but leaves the scene (in
particular every material's clip-plane list) untouched, and when flipping
from Idle to Sectioned publishes no section update at all. -/
theorem toggle_without_mesh (st : ControllerState)
    (h : findFacadeMesh st.scene = none) :
    (toggleClipping st).1.clippingEnabled = !st.clippingEnabled ∧
    (toggleClipping st).1.scene = st.scene ∧
    (st.clippingEnabled = false → (toggleClipping st).2 = []) := by
  unfold toggleClipping
  rw [h]
  refine ⟨rfl, rfl, fun h2 => ?_⟩
  rw [h2]
  rfl

/-- Witness for C10 at a concrete input. -/
theorem toggle_without_mesh_witness :
    (toggleClipping ⟨false, [SceneNode.other]⟩).1.clippingEnabled = !false ∧
    (toggleClipping ⟨false, [SceneNode.other]⟩).1.scene = [SceneNode.other] ∧
    (false = false → (toggleClipping ⟨false, [SceneNode.other]⟩).2 = []) :=
  toggle_without_mesh ⟨false, [SceneNode.other]⟩ rfl

lemma nodeShading_setClipping (b : Bool) (p : ClipPlane) (n : SceneNode) :
    nodeShading (setClipping b p n) = nodeShading n := by
  cases n with
  | mesh m => cases b <;> rfl
  | other => rfl

/-- A material that carries a pre-existing clip plane (constant 7). -/
def matC : Material := ⟨⟨⟨0.8, 0.7, 0.5⟩, 0.65, 0, 1⟩, [⟨⟨0, -1, 0⟩, 7⟩], true⟩

/-- A unit-cube facade mesh whose material already carries a clip plane. -/
def c6Mesh : MeshObj := ⟨[⟨0, 0, 0⟩, ⟨1, 1, 1⟩], idM, matC⟩

/-- The configurator inputs used in the concrete recomputation scenes. -/
def params5 : MaterialParams := ⟨"Fichte/Tanne", "Gehobelt", 1, "Unbehandelt", none⟩

/-- C5 counterexample: while a clip plane is active on a mesh's material,
recomputing the material (the `CustomModel` effect) replaces the material
wholesale with a fresh one whose clip-plane list is empty, so the active
clip-plane state is not preserved. -/
theorem recompute_drops_clipplane_counterexample :
    (⟨true, [.mesh c6Mesh]⟩ : ControllerState).scene.map nodeClipPlanes
      = [[⟨⟨0, -1, 0⟩, 7⟩]] ∧
    (recomputeMaterials params5 ⟨true, [.mesh c6Mesh]⟩).scene.map nodeClipPlanes
      = [[]] ∧
    ([[]] : List (List ClipPlane)) ≠ [[⟨⟨0, -1, 0⟩, 7⟩]] := by
  refine ⟨rfl, rfl, by simp⟩

/-- C5 amended: the two axes are only half independent.  Toggling the
section never alters any material's shading parameters (colour, roughness,
metalness, reflection intensity), and recomputing materials does not touch
the clipping-enabled flag and publishes no section update; but recomputing
the materials replaces every mesh's material with a fresh one, so every
mesh's clip-plane list is reset to empty (an active clip plane is lost). -/
theorem material_clipping_independence :
    (∀ st : ControllerState,
      (toggleClipping st).1.scene.map nodeShading = st.scene.map nodeShading) ∧
    (∀ (p : MaterialParams) (st : ControllerState),
      (recomputeMaterials p st).clippingEnabled = st.clippingEnabled ∧
      (recomputeMaterials p st).scene.map nodeClipPlanes
        = st.scene.map fun _ => ([] : List ClipPlane)) := by
  constructor
  · intro st
    unfold toggleClipping
    cases hfm : findFacadeMesh st.scene with
    | none => rfl
    | some fm =>
      dsimp only
      rw [List.map_map]
      exact List.map_congr_left fun n _ => nodeShading_setClipping _ _ n
  · intro p st
    refine ⟨rfl, ?_⟩
    unfold recomputeMaterials
    dsimp only
    rw [List.map_map]
    refine List.map_congr_left fun n _ => ?_
    cases n <;> rfl

lemma facadeAux_map (b : Bool) (p : ClipPlane) (rest : List SceneNode) :
    ∀ (best : Option MeshObj) (A : ℚ),
      facadeAux (rest.map (setClipping b p)) (best.map (clipMesh b p)) A
        = (facadeAux rest best A).map (clipMesh b p) := by
  induction rest with
  | nil => intro best A; rfl
  | cons n rest ih =>
    intro best A
    cases n with
    | mesh m =>
      have harea : meshArea (clipMesh b p m) = meshArea m := rfl
      simp only [List.map_cons, setClipping, facadeAux, harea]
      split
      · exact ih (some m) (meshArea m)
      · exact ih best A
    | other =>
      simp only [List.map_cons, setClipping, facadeAux]
      exact ih best A

lemma findFacadeMesh_map_setClipping (b : Bool) (p : ClipPlane)
    (scene : List SceneNode) :
    findFacadeMesh (scene.map (setClipping b p))
      = (findFacadeMesh scene).map (clipMesh b p) :=
  facadeAux_map b p scene none 0

lemma setClipping_setClipping (p q : ClipPlane) (b : Bool) (n : SceneNode) :
    setClipping false q (setClipping b p n) = setClipping false q n := by
  cases n with
  | mesh m => cases b <;> rfl
  | other => rfl

lemma setClipping_false_id (q : ClipPlane) (n : SceneNode)
    (h1 : nodeClipPlanes n = []) (h2 : nodeClipShadows n = false) :
    setClipping false q n = n := by
  cases n with
  | mesh m =>
    obtain ⟨mv, mw, sh, cp, cs⟩ := m
    simp only [nodeClipPlanes] at h1
    simp only [nodeClipShadows] at h2
    simp [setClipping, clipMesh, clippedMaterial, h1, h2]
  | other => rfl

/-- The clip plane built by `toggleClipping` for a given facade mesh. -/
def togglePlane (fm : MeshObj) : ClipPlane := ⟨⟨0, -1, 0⟩, meshClipHeight fm⟩

lemma toggleClipping_shape (st : ControllerState) (fm : MeshObj)
    (hfm : findFacadeMesh st.scene = some fm) :
    (toggleClipping st).1 =
      ⟨!st.clippingEnabled,
        st.scene.map (setClipping (!st.clippingEnabled) (togglePlane fm))⟩ := by
  unfold toggleClipping togglePlane
  rw [hfm]

/-- C6 counterexample: starting from a Sectioned state (clipping enabled,
plane installed), toggling twice does not return the materials to empty
clip-plane lists — the second toggle re-enables clipping and installs a
fresh plane. -/
theorem toggle_twice_counterexample :
    (findFacadeMesh [.mesh c6Mesh]).isSome = true ∧
    ((toggleClipping (toggleClipping ⟨true, [.mesh c6Mesh]⟩).1).1.scene.map
        nodeClipPlanes ≠ [[]]) := by
  constructor
  · norm_num [findFacadeMesh, facadeAux, meshArea, worldBox, setFromPoints,
      expandByPoint, applyMatrixBox, boxCorners, boxSize, AffineM.apply, idM,
      c6Mesh, matC, min_def, max_def]
  · norm_num [toggleClipping, findFacadeMesh, facadeAux, meshArea, worldBox,
      setFromPoints, expandByPoint, applyMatrixBox, boxCorners, boxSize,
      boxCenter, meshClipHeight, collectSectionPoints, pointKey, AffineM.apply,
      idM, c6Mesh, matC, min_def, max_def, abs_of_nonneg, abs_of_nonpos,
      setClipping, clipMesh, clippedMaterial, nodeClipPlanes]

/-- C6 amended: starting from the Idle state (clipping off) with a facade
mesh found and every material's clip-plane list empty and shadow clipping
off — the invariant Idle configuration — toggling twice restores the exact
pre-toggle controller state: clipping off and every material's clip-plane
list empty again. -/
theorem toggle_twice_restores (st : ControllerState)
    (h1 : st.clippingEnabled = false)
    (h2 : (findFacadeMesh st.scene).isSome = true)
    (h3 : ∀ n ∈ st.scene, nodeClipPlanes n = [] ∧ nodeClipShadows n = false) :
    (toggleClipping (toggleClipping st).1).1 = st := by
  obtain ⟨fm, hfm⟩ := Option.isSome_iff_exists.mp h2
  have hshape1 := toggleClipping_shape st fm hfm
  rw [hshape1, h1]
  have hfm2 : findFacadeMesh (st.scene.map (setClipping (!false) (togglePlane fm)))
      = some (clipMesh (!false) (togglePlane fm) fm) := by
    rw [findFacadeMesh_map_setClipping, hfm]
    rfl
  have hshape2 := toggleClipping_shape
    ⟨!false, st.scene.map (setClipping (!false) (togglePlane fm))⟩
    (clipMesh (!false) (togglePlane fm) fm) hfm2
  rw [hshape2]
  obtain ⟨en, scene⟩ := st
  simp only at h1
  subst h1
  simp only [Bool.not_false, Bool.not_true, List.map_map,
    ControllerState.mk.injEq, true_and]
  have hall : ∀ n ∈ scene,
      (setClipping false (togglePlane (clipMesh true (togglePlane fm) fm))
        ∘ setClipping true (togglePlane fm)) n = id n := by
    intro n hn
    simp only [Function.comp_apply]
    rw [setClipping_setClipping]
    exact setClipping_false_id _ n (h3 n hn).1 (h3 n hn).2
  rw [List.map_congr_left hall, List.map_id]

/-- Witness for the amended C6 at a concrete input. -/
theorem toggle_twice_restores_witness :
    (toggleClipping (toggleClipping ⟨false, [.mesh c2Mesh]⟩).1).1
      = (⟨false, [.mesh c2Mesh]⟩ : ControllerState) :=
  toggle_twice_restores ⟨false, [.mesh c2Mesh]⟩ rfl
    (by rw [c2Mesh_facade]; rfl)
    (by
      intro n hn
      simp only [List.mem_singleton] at hn
      subst hn
      exact ⟨rfl, rfl⟩)

/-- Componentwise `min ≤ max` for a bounding box. -/
def boxWF (b : Box3) : Prop :=
  b.min.x ≤ b.max.x ∧ b.min.y ≤ b.max.y ∧ b.min.z ≤ b.max.z

lemma expandByPoint_wf (b : Box3) (v : Vec3) : boxWF (expandByPoint b v) :=
  ⟨le_trans (min_le_right _ _) (le_max_right _ _),
   le_trans (min_le_right _ _) (le_max_right _ _),
   le_trans (min_le_right _ _) (le_max_right _ _)⟩

lemma foldl_expandByPoint_wf (vs : List Vec3) (b : Box3) (h : boxWF b) :
    boxWF (vs.foldl expandByPoint b) := by
  induction vs generalizing b with
  | nil => exact h
  | cons v vs ih => exact ih _ (expandByPoint_wf b v)

lemma applyMatrixBox_wf (T : AffineM) (b : Box3) : boxWF (applyMatrixBox T b) := by
  show boxWF (List.foldl expandByPoint _ _)
  exact foldl_expandByPoint_wf _ _ ⟨le_refl _, le_refl _, le_refl _⟩

lemma worldBox_wf (m : MeshObj) (b : Box3) (h : worldBox m = some b) :
    boxWF b := by
  unfold worldBox at h
  cases hsp : setFromPoints m.vertices with
  | none => rw [hsp] at h; cases h
  | some b0 =>
    rw [hsp] at h
    simp only [Option.map_some', Option.some.injEq] at h
    subst h
    exact applyMatrixBox_wf m.matrixWorld b0

lemma meshArea_nonneg (m : MeshObj) : 0 ≤ meshArea m := by
  unfold meshArea
  cases hwb : worldBox m with
  | none => simp [boxSize]
  | some b =>
    have hwf := worldBox_wf m b hwb
    simp only [boxSize]
    exact mul_nonneg (by linarith [hwf.1]) (by linarith [hwf.2.1])

lemma sceneMeshes_cons_mesh (m : MeshObj) (rest : List SceneNode) :
    sceneMeshes (.mesh m :: rest) = m :: sceneMeshes rest := rfl

lemma sceneMeshes_cons_other (rest : List SceneNode) :
    sceneMeshes (.other :: rest) = sceneMeshes rest := rfl

lemma facadeAux_isSome (rest : List SceneNode) :
    ∀ (m : MeshObj) (A : ℚ), ∃ fm, facadeAux rest (some m) A = some fm := by
  induction rest with
  | nil => exact fun m _ => ⟨m, rfl⟩
  | cons n rest ih =>
    intro m A
    cases n with
    | mesh m2 =>
      simp only [facadeAux]
      split
      · exact ih m2 _
      · exact ih m A
    | other => exact ih m A

lemma facadeAux_none_iff (rest : List SceneNode) :
    ∀ (best : Option MeshObj) (A : ℚ),
      (facadeAux rest best A = none ↔
        best = none ∧ ∀ m ∈ sceneMeshes rest, meshArea m ≤ A) := by
  induction rest with
  | nil =>
    intro best A
    simp [facadeAux, sceneMeshes]
  | cons n rest ih =>
    intro best A
    cases n with
    | mesh m =>
      rw [sceneMeshes_cons_mesh]
      simp only [facadeAux]
      split
      · rename_i hgt
        constructor
        · intro h
          obtain ⟨fm, hfm⟩ := facadeAux_isSome rest m (meshArea m)
          rw [h] at hfm
          cases hfm
        · rintro ⟨_, hall⟩
          exact absurd hgt (not_lt.mpr (hall m (List.mem_cons_self m _)))
      · rename_i hle
        rw [ih best A]
        simp only [List.mem_cons, forall_eq_or_imp]
        constructor
        · rintro ⟨hb, hall⟩
          exact ⟨hb, not_lt.mp hle, hall⟩
        · rintro ⟨hb, _, hall⟩
          exact ⟨hb, hall⟩
    | other =>
      rw [sceneMeshes_cons_other]
      exact ih best A

lemma facadeAux_le (rest : List SceneNode) :
    ∀ (best : Option MeshObj) (A : ℚ) (fm : MeshObj),
      (∀ b, best = some b → meshArea b = A) →
      facadeAux rest best A = some fm →
      (∀ m ∈ sceneMeshes rest, meshArea m ≤ meshArea fm) ∧ A ≤ meshArea fm := by
  induction rest with
  | nil =>
    intro best A fm hinv h
    simp only [facadeAux] at h
    exact ⟨by simp [sceneMeshes], le_of_eq (hinv fm h).symm⟩
  | cons n rest ih =>
    intro best A fm hinv h
    cases n with
    | mesh m =>
      rw [sceneMeshes_cons_mesh]
      simp only [facadeAux] at h
      by_cases hgt : meshArea m > A
      · rw [if_pos hgt] at h
        obtain ⟨hall, hA⟩ := ih (some m) (meshArea m) fm
          (fun b hb => by rw [← Option.some.inj hb]) h
        refine ⟨?_, le_trans (le_of_lt hgt) hA⟩
        intro x hx
        rcases List.mem_cons.mp hx with rfl | hx
        · exact hA
        · exact hall x hx
      · rw [if_neg hgt] at h
        obtain ⟨hall, hA⟩ := ih best A fm hinv h
        refine ⟨?_, hA⟩
        intro x hx
        rcases List.mem_cons.mp hx with rfl | hx
        · exact le_trans (not_lt.mp hgt) hA
        · exact hall x hx
    | other =>
      rw [sceneMeshes_cons_other]
      exact ih best A fm hinv h

lemma facadeAux_strict (rest : List SceneNode) :
    ∀ (best : Option MeshObj) (A : ℚ) (fm : MeshObj),
      facadeAux rest best A = some fm →
      best = some fm ∨ A < meshArea fm := by
  induction rest with
  | nil => exact fun best A fm h => Or.inl h
  | cons n rest ih =>
    intro best A fm h
    cases n with
    | mesh m =>
      simp only [facadeAux] at h
      by_cases hgt : meshArea m > A
      · rw [if_pos hgt] at h
        rcases ih (some m) (meshArea m) fm h with heq | hlt
        · refine Or.inr ?_
          rw [← Option.some.inj heq]
          exact hgt
        · exact Or.inr (lt_trans hgt hlt)
      · rw [if_neg hgt] at h
        exact ih best A fm h
    | other => exact ih best A fm h

lemma facadeAux_first (rest : List SceneNode) :
    ∀ (best : Option MeshObj) (A : ℚ) (fm : MeshObj),
      facadeAux rest best A = some fm →
      best = some fm ∨
        ∃ pre post, sceneMeshes rest = pre ++ fm :: post ∧
          ∀ m ∈ pre, meshArea m < meshArea fm ∨ meshArea m ≤ A := by
  induction rest with
  | nil => exact fun best A fm h => Or.inl h
  | cons n rest ih =>
    intro best A fm h
    cases n with
    | mesh m =>
      simp only [facadeAux] at h
      by_cases hgt : meshArea m > A
      · rw [if_pos hgt] at h
        rcases facadeAux_strict rest (some m) (meshArea m) fm h with heq | hlt
        · have hm := Option.some.inj heq
          subst hm
          exact Or.inr ⟨[], sceneMeshes rest,
            by rw [sceneMeshes_cons_mesh]; rfl, by simp⟩
        · rcases ih (some m) (meshArea m) fm h with heq | ⟨pre, post, hsplit, hpre⟩
          · have hm := Option.some.inj heq
            subst hm
            exact absurd hlt (lt_irrefl _)
          · refine Or.inr ⟨m :: pre, post, ?_, ?_⟩
            · rw [sceneMeshes_cons_mesh, hsplit]
              rfl
            · intro x hx
              rcases List.mem_cons.mp hx with rfl | hx
              · exact Or.inl hlt
              · rcases hpre x hx with h1 | h2
                · exact Or.inl h1
                · exact Or.inl (lt_of_le_of_lt h2 hlt)
      · rw [if_neg hgt] at h
        rcases ih best A fm h with heq | ⟨pre, post, hsplit, hpre⟩
        · exact Or.inl heq
        · refine Or.inr ⟨m :: pre, post, ?_, ?_⟩
          · rw [sceneMeshes_cons_mesh, hsplit]
            rfl
          · intro x hx
            rcases List.mem_cons.mp hx with rfl | hx
            · exact Or.inr (not_lt.mp hgt)
            · exact hpre x hx
    | other =>
      rcases ih best A fm h with heq | ⟨pre, post, hsplit, hpre⟩
      · exact Or.inl heq
      · exact Or.inr ⟨pre, post, by rw [sceneMeshes_cons_other, hsplit], hpre⟩

/-- A mesh with geometry but zero bounding-box footprint area (its x-extent
is zero). -/
def zMesh : MeshObj := ⟨[⟨0, 0, 0⟩, ⟨0, 1, 1⟩], idM, mat0⟩

/-- C7 counterexample: a scene whose only mesh has geometry but zero
footprint area makes `findFacadeMesh` return `none` — it does not return
the mesh with the largest area, and `none` does not mean "no mesh with
geometry". -/
theorem findFacadeMesh_counterexample :
    zMesh.vertices ≠ [] ∧ findFacadeMesh [.mesh zMesh] = none := by
  refine ⟨by simp [zMesh], ?_⟩
  norm_num [findFacadeMesh, facadeAux, meshArea, worldBox, setFromPoints,
    expandByPoint, applyMatrixBox, boxCorners, boxSize, AffineM.apply, idM,
    zMesh, mat0, min_def, max_def]

/-- C7 amended: `findFacadeMesh` returns `none` exactly when every mesh of
the scene has zero footprint area (in particular when there is no mesh);
otherwise it returns the first mesh in traversal order whose footprint area
is positive and maximal — ties are broken in favour of the first such mesh
(every mesh before it in traversal order has strictly smaller area). -/
theorem findFacadeMesh_characterization (scene : List SceneNode) :
    (findFacadeMesh scene = none ↔ ∀ m ∈ sceneMeshes scene, meshArea m = 0) ∧
    (∀ fm, findFacadeMesh scene = some fm →
      0 < meshArea fm ∧
      (∀ m ∈ sceneMeshes scene, meshArea m ≤ meshArea fm) ∧
      ∃ pre post, sceneMeshes scene = pre ++ fm :: post ∧
        ∀ m ∈ pre, meshArea m < meshArea fm) := by
  constructor
  · unfold findFacadeMesh
    rw [facadeAux_none_iff scene none 0]
    simp only [true_and]
    constructor
    · intro h m hm
      exact le_antisymm (h m hm) (meshArea_nonneg m)
    · intro h m hm
      exact le_of_eq (h m hm)
  · intro fm hfm
    unfold findFacadeMesh at hfm
    have hpos : 0 < meshArea fm := by
      rcases facadeAux_strict scene none 0 fm hfm with h | h
      · cases h
      · exact h
    have hle := facadeAux_le scene none 0 fm (fun b hb => by cases hb) hfm
    refine ⟨hpos, hle.1, ?_⟩
    rcases facadeAux_first scene none 0 fm hfm with h | ⟨pre, post, hsplit, hpre⟩
    · cases h
    · refine ⟨pre, post, hsplit, fun m hm => ?_⟩
      rcases hpre m hm with h1 | h2
      · exact h1
      · exact lt_of_le_of_lt h2 hpos

/-- A 1×1 footprint mesh starting at the origin. -/
def mA : MeshObj := ⟨[⟨0, 0, 0⟩, ⟨1, 1, 0⟩], idM, mat0⟩

/-- A second 1×1 footprint mesh (equal area: a traversal-order tie). -/
def mB : MeshObj := ⟨[⟨5, 0, 0⟩, ⟨6, 1, 0⟩], idM, matC⟩

/-- Witness for the amended C7 at a concrete two-mesh tie scene. -/
theorem findFacadeMesh_characterization_witness :
    0 < meshArea mA ∧
    (∀ m ∈ sceneMeshes [.mesh mA, .mesh mB], meshArea m ≤ meshArea mA) ∧
    ∃ pre post, sceneMeshes [.mesh mA, .mesh mB] = pre ++ mA :: post ∧
      ∀ m ∈ pre, meshArea m < meshArea mA :=
  (findFacadeMesh_characterization [.mesh mA, .mesh mB]).2 mA
    (by norm_num [findFacadeMesh, facadeAux, meshArea, worldBox, setFromPoints,
      expandByPoint, applyMatrixBox, boxCorners, boxSize, AffineM.apply, idM,
      mA, mB, mat0, matC, min_def, max_def])

/-- The camera state touched by `handleZoom`: position, look-at / orbit
target, vertical field of view in degrees, and the world view direction
returned by `camera.getWorldDirection` (derived from the camera orientation;
a unit vector for a real camera). -/
structure CameraQ where
  position : Vec3
  target : Vec3
  fovDeg : ℚ
  viewDir : Vec3
deriving DecidableEq

/-- The numeric routines `Math.sin` and the constant `Math.PI` used by
`handleZoom`, treated as opaque parameters of the model. -/
structure MathOps where
  sin : ℚ → ℚ
  pi : ℚ

/-- `Vector3.negate`. -/
def vneg (v : Vec3) : Vec3 := ⟨-v.x, -v.y, -v.z⟩

/-- `position.copy(center).addScaledVector(direction, distance)`. -/
def vaddScaled (p d : Vec3) (s : ℚ) : Vec3 :=
  ⟨p.x + d.x * s, p.y + d.y * s, p.z + d.z * s⟩

/-- `handleZoom` from the SceneController: frame the facade mesh — distance
`|maxDim / sin(fov/2)| * 0.6` from the bounding-box centre along the negated
current view direction, look-at target at the centre — or reset to the fixed
default pose `(0,0,5)` looking at the origin when no facade mesh is found
(the viewer's camera is a `PerspectiveCamera`, `fov` converted from degrees
to radians). -/
def handleZoom (ops : MathOps) (scene : List SceneNode) (cam : CameraQ) : CameraQ :=
  match findFacadeMesh scene with
  | some fm =>
    let size := boxSize (worldBox fm)
    let center := boxCenter (worldBox fm)
    let maxDim := max size.x size.y
    let fov := cam.fovDeg * (ops.pi / 180)
    let distance := |maxDim / ops.sin (fov / 2)| * 0.6
    let direction := vneg cam.viewDir
    { cam with position := vaddScaled center direction distance, target := center }
  | none => { cam with position := ⟨0, 0, 5⟩, target := ⟨0, 0, 0⟩ }

/-- Squared distance between two 3D points. -/
def distSq3 (p q : Vec3) : ℚ :=
  (p.x - q.x) ^ 2 + (p.y - q.y) ^ 2 + (p.z - q.z) ^ 2

lemma distSq3_addScaled (c d : Vec3) (s : ℚ) :
    distSq3 (vaddScaled c d s) c = (d.x ^ 2 + d.y ^ 2 + d.z ^ 2) * s ^ 2 := by
  unfold distSq3 vaddScaled
  ring

/-- C8: when a facade mesh is found, the zoom command places the camera at
squared distance `(|max(sx,sy) / sin(fov/2)| * 0.6)^2` from the bounding-box
centre (i.e. at that distance, for a unit view direction), along the
preserved (negated) current viewing direction, and sets the look-at target
to the centre; when no facade mesh is found the camera is reset to position
(0,0,5) looking at the origin. -/
theorem handleZoom_spec (ops : MathOps) (cam : CameraQ) :
    (∀ (scene : List SceneNode) (fm : MeshObj),
      findFacadeMesh scene = some fm →
      cam.viewDir.x ^ 2 + cam.viewDir.y ^ 2 + cam.viewDir.z ^ 2 = 1 →
      distSq3 (handleZoom ops scene cam).position (boxCenter (worldBox fm))
          = (|max (boxSize (worldBox fm)).x (boxSize (worldBox fm)).y
                / ops.sin (cam.fovDeg * (ops.pi / 180) / 2)| * 0.6) ^ 2 ∧
        (handleZoom ops scene cam).position
          = vaddScaled (boxCenter (worldBox fm)) (vneg cam.viewDir)
              (|max (boxSize (worldBox fm)).x (boxSize (worldBox fm)).y
                / ops.sin (cam.fovDeg * (ops.pi / 180) / 2)| * 0.6) ∧
        (handleZoom ops scene cam).target = boxCenter (worldBox fm)) ∧
    (∀ scene : List SceneNode,
      findFacadeMesh scene = none →
      (handleZoom ops scene cam).position = ⟨0, 0, 5⟩ ∧
      (handleZoom ops scene cam).target = ⟨0, 0, 0⟩) := by
  constructor
  · intro scene fm hfm hunit
    unfold handleZoom
    rw [hfm]
    dsimp only
    refine ⟨?_, rfl, rfl⟩
    rw [distSq3_addScaled]
    have h2 : (vneg cam.viewDir).x ^ 2 + (vneg cam.viewDir).y ^ 2
        + (vneg cam.viewDir).z ^ 2
        = cam.viewDir.x ^ 2 + cam.viewDir.y ^ 2 + cam.viewDir.z ^ 2 := by
      simp only [vneg]
      ring
    rw [h2, hunit, one_mul]
  · intro scene hfm
    unfold handleZoom
    rw [hfm]
    exact ⟨rfl, rfl⟩

/-- An opaque stand-in for the numeric sine routine in the witness. -/
def ops8 : MathOps := ⟨fun _ => 1 / 2, 3⟩

/-- A concrete camera with a unit view direction. -/
def cam8 : CameraQ := ⟨⟨0, 0, 9⟩, ⟨0, 0, 0⟩, 50, ⟨0, 0, 1⟩⟩

/-- Witness for C8 at concrete inputs (a one-mesh scene and an empty
scene). -/
theorem handleZoom_spec_witness :
    (distSq3 (handleZoom ops8 [.mesh mA] cam8).position (boxCenter (worldBox mA))
        = (|max (boxSize (worldBox mA)).x (boxSize (worldBox mA)).y
              / ops8.sin (cam8.fovDeg * (ops8.pi / 180) / 2)| * 0.6) ^ 2 ∧
      (handleZoom ops8 [.mesh mA] cam8).position
        = vaddScaled (boxCenter (worldBox mA)) (vneg cam8.viewDir)
            (|max (boxSize (worldBox mA)).x (boxSize (worldBox mA)).y
              / ops8.sin (cam8.fovDeg * (ops8.pi / 180) / 2)| * 0.6) ∧
      (handleZoom ops8 [.mesh mA] cam8).target = boxCenter (worldBox mA)) ∧
    ((handleZoom ops8 [] cam8).position = ⟨0, 0, 5⟩ ∧
     (handleZoom ops8 [] cam8).target = ⟨0, 0, 0⟩) :=
  ⟨(handleZoom_spec ops8 cam8).1 [.mesh mA] mA
      (by norm_num [findFacadeMesh, facadeAux, meshArea, worldBox, setFromPoints,
        expandByPoint, applyMatrixBox, boxCorners, boxSize, AffineM.apply, idM,
        mA, mat0, min_def, max_def])
      (by norm_num [cam8]),
   (handleZoom_spec ops8 cam8).2 [] rfl⟩

end Fassaden
